import Mathlib

/-! Verification development for the MurmurHash repository (src/murmur.h), a
compile-time template-metaprogramming implementation of MurmurHash3 (32-bit).

The C++ computes entirely over uint32 enum constants; we embed it as Nat
functions with explicit reduction modulo 2 ^ 32. The template character
parameters have C++ type char, which is signed on the reference ABI
(x86 gcc/clang); a byte b in 128..255 therefore denotes the char value
b - 256 and is sign-extended by the usual arithmetic conversions when it
enters an int/uint32 expression. charVal and bits32 model exactly that
conversion. Seed/Hash/Length are uint32 template parameters, modelled by
reducing mod 2 ^ 32 where they enter.
-/

namespace Murmur

/-- Reduction modulo 2 ^ 32, the uint32 wrap applied to every arithmetic
result; implemented as the equivalent low-32-bit mask, see u32_eq_mod. -/
def u32 (x : Nat) : Nat := x &&& 0xffffffff

/-- Value of the C++ char holding byte b: signed char on the reference ABI. -/
def charVal (b : Nat) : Int := if b < 128 then (b : Int) else (b : Int) - 256

/-- The 32-bit two:s-complement pattern of an int-valued expression. -/
def bits32 (i : Int) : Nat := (i % 4294967296).toNat

/-- murmur.h lines 112-128, specialization MurmurHash32Impl of Hash and Length with
no remaining characters: the finalization avalanche, enums Hash1..Hash6. -/
def implFinalize (Hash Length : Nat) : Nat :=
  let Hash1 := u32 Hash ^^^ u32 Length
  let Hash2 := Hash1 ^^^ (Hash1 >>> 16)
  let Hash3 := u32 (Hash2 * 0x85ebca6b)
  let Hash4 := Hash3 ^^^ (Hash3 >>> 13)
  let Hash5 := u32 (Hash4 * 0xc2b2ae35)
  let Hash6 := Hash5 ^^^ (Hash5 >>> 16)
  Hash6

/-- murmur.h lines 131-145, enums K0..K3 of the 1-remaining-byte specialization:
K0 = 0x00000000 ^ A, then multiply by C1, rotate left 15, multiply by C2. -/
def tailK1 (A : Nat) : Nat :=
  let K0 := 0 ^^^ bits32 (charVal A)
  let K1 := u32 (K0 * 0xcc9e2d51)
  let K2 := u32 (K1 <<< 15) ||| (K1 >>> (32 - 15))
  u32 (K2 * 0x1b873593)

/-- murmur.h lines 148-162, enums K0..K4 of the 2-remaining-bytes specialization:
K0 = 0x00000000 ^ (B << 8), K1 = K0 ^ A, then the C1/rol15/C2 pipeline. -/
def tailK2 (A B : Nat) : Nat :=
  let K0 := 0 ^^^ bits32 (charVal B * 256)
  let K1 := K0 ^^^ bits32 (charVal A)
  let K2 := u32 (K1 * 0xcc9e2d51)
  let K3 := u32 (K2 <<< 15) ||| (K2 >>> (32 - 15))
  u32 (K3 * 0x1b873593)

/-- murmur.h lines 165-180, enums K0..K5 of the 3-remaining-bytes specialization:
K0 = 0 ^ (C << 16), K1 = K0 ^ (B << 8), K2 = K1 ^ A, then C1/rol15/C2. -/
def tailK3 (A B C : Nat) : Nat :=
  let K0 := 0 ^^^ bits32 (charVal C * 65536)
  let K1 := K0 ^^^ bits32 (charVal B * 256)
  let K2 := K1 ^^^ bits32 (charVal A)
  let K3 := u32 (K2 * 0xcc9e2d51)
  let K4 := u32 (K3 <<< 15) ||| (K3 >>> (32 - 15))
  u32 (K4 * 0x1b873593)

/-- murmur.h lines 131-145: the 1-byte tail specialization sets
Hash1 = Hash ^ K3 and recurses into the finalizer with Length + 1. -/
def implTail1 (Hash Length A : Nat) : Nat :=
  implFinalize (Hash ^^^ tailK1 A) (Length + 1)

/-- murmur.h lines 148-162: the 2-byte tail specialization sets
Hash1 = Hash ^ K4 and recurses into the finalizer with Length + 2. -/
def implTail2 (Hash Length A B : Nat) : Nat :=
  implFinalize (Hash ^^^ tailK2 A B) (Length + 2)

/-- murmur.h lines 165-180: the 3-byte tail specialization sets
Hash1 = Hash ^ K5 and recurses into the finalizer with Length + 3. -/
def implTail3 (Hash Length A B C : Nat) : Nat :=
  implFinalize (Hash ^^^ tailK3 A B C) (Length + 3)

/-- murmur.h lines 183-201, full-block specialization body, enums K0..K3 and
Hash1..Hash3: K0 = (D << 24) | (C << 16) | (B << 8) | A in int arithmetic
(each char is sign-extended before the shift), then the C1/rol15/C2 pipeline,
Hash1 = Hash ^ K3, Hash2 = rol13 Hash1, Hash3 = Hash2 * 5 + 0xe6546b64. -/
def implBlockStep (Hash A B C D : Nat) : Nat :=
  let K0 := bits32 (charVal D * 16777216) ||| bits32 (charVal C * 65536) |||
            bits32 (charVal B * 256) ||| bits32 (charVal A)
  let K1 := u32 (K0 * 0xcc9e2d51)
  let K2 := u32 (K1 <<< 15) ||| (K1 >>> (32 - 15))
  let K3 := u32 (K2 * 0x1b873593)
  let Hash1 := Hash ^^^ K3
  let Hash2 := u32 (Hash1 <<< 13) ||| (Hash1 >>> (32 - 13))
  let Hash3 := u32 (Hash2 * 5 + 0xe6546b64)
  Hash3

/-- murmur.h lines 98-99 and 112-201: MurmurHash32Impl dispatches on the
remaining character pack exactly as the C++ specialization ordering does: 4 or more
characters select the full-block specialization (lines 183-201), 1/2/3 the
tail specializations, none the finalizer. -/
def MurmurHash32Impl (Hash Length : Nat) : List Nat → Nat
  | [] => implFinalize Hash Length
  | [A] => implTail1 Hash Length A
  | [A, B] => implTail2 Hash Length A B
  | [A, B, C] => implTail3 Hash Length A B C
  | A :: B :: C :: D :: Tail =>
      MurmurHash32Impl (implBlockStep Hash A B C D) (Length + 4) Tail

/-- murmur.h lines 106-109, the public interface: MurmurHash32 with uint32
Seed and a char pack starts the recursion at Hash = Seed, Length = 0.
The Seed template parameter has no default value in the source. -/
def MurmurHash32 (Seed : Nat) (Chars : List Nat) : Nat :=
  MurmurHash32Impl (u32 Seed) 0 Chars

/-- Accumulator after the block and tail stages only (no finalization),
extracted from the same specialization bodies; used to state that the digest
is the finalizer applied to this accumulator and the true input length. -/
def implAbsorb (Hash : Nat) : List Nat → Nat
  | [] => Hash
  | [A] => Hash ^^^ tailK1 A
  | [A, B] => Hash ^^^ tailK2 A B
  | [A, B, C] => Hash ^^^ tailK3 A B C
  | A :: B :: C :: D :: Tail => implAbsorb (implBlockStep Hash A B C D) Tail

/-- Fuel-indexed evaluator of the same recursion, used to express termination:
it returns none when the step budget runs out, and each full block spends one
unit of fuel while consuming four characters. -/
def MurmurHash32ImplFuel : Nat → Nat → Nat → List Nat → Option Nat
  | 0, _, _, _ => none
  | _ + 1, Hash, Length, [] => some (implFinalize Hash Length)
  | _ + 1, Hash, Length, [A] => some (implTail1 Hash Length A)
  | _ + 1, Hash, Length, [A, B] => some (implTail2 Hash Length A B)
  | _ + 1, Hash, Length, [A, B, C] => some (implTail3 Hash Length A B C)
  | fuel + 1, Hash, Length, A :: B :: C :: D :: Tail =>
      MurmurHash32ImplFuel fuel (implBlockStep Hash A B C D) (Length + 4) Tail

/-- Follows the words of spec.md section 4.3: the finalizer formula with
logical (zero-fill) right shifts, written as division, and every
multiplication reduced mod 2 ^ 32. For comparison with implFinalize. -/
def specFinalize (hash length : Nat) : Nat :=
  let h0 := (hash % 4294967296) ^^^ (length % 4294967296)
  let h1 := h0 ^^^ (h0 / 2 ^ 16)
  let h2 := (h1 * 0x85ebca6b) % 4294967296
  let h3 := h2 ^^^ (h2 / 2 ^ 13)
  let h4 := (h3 * 0xc2b2ae35) % 4294967296
  h4 ^^^ (h4 / 2 ^ 16)

/-- Follows the words of spec.md sections 4.1-4.2: the shared k-mixing
pipeline k * C1, rotate left 15, k * C2 on a 32-bit word. -/
def specMix (k : Nat) : Nat :=
  let k1 := (k * 0xcc9e2d51) % 4294967296
  let k2 := ((k1 <<< 15) % 4294967296) ||| (k1 >>> 17)
  (k2 * 0x1b873593) % 4294967296

/-- Follows the words of spec.md sections 4.1-4.2: little-endian chunk
assembly with byte 0 least significant and high bytes zero, the block
combine step rol13 / *5 + 0xe6546b64 for full chunks, and the tail folded
only through XOR. For comparison with the source embedding. -/
def specAbsorb (hash : Nat) : List Nat → Nat
  | [] => hash
  | [a] => hash ^^^ specMix a
  | [a, b] => hash ^^^ specMix (a ||| (b <<< 8))
  | [a, b, c] => hash ^^^ specMix (a ||| (b <<< 8) ||| (c <<< 16))
  | a :: b :: c :: d :: rest =>
      let h1 := hash ^^^ specMix (a ||| (b <<< 8) ||| (c <<< 16) ||| (d <<< 24))
      let h2 := ((h1 <<< 13) % 4294967296) ||| (h1 >>> 19)
      let h3 := (h2 * 5 + 0xe6546b64) % 4294967296
      specAbsorb h3 rest

/-- Follows the words of spec.md: hash32(bytes, seed) of the canonical
MurmurHash3_x86_32 algorithm stated there, with the true byte count fed to
the finalizer. For comparison with MurmurHash32. -/
def specHash32 (seed : Nat) (bytes : List Nat) : Nat :=
  specFinalize (specAbsorb (seed % 4294967296) bytes) bytes.length

/-- Inverse of the xorshift-16 step on 32-bit words. -/
def unshift16 (y : Nat) : Nat := y ^^^ (y >>> 16)

/-- Inverse of the xorshift-13 step on 32-bit words. -/
def unshift13 (y : Nat) : Nat := y ^^^ (y >>> 13) ^^^ (y >>> 26)

/-- Inverse of the finalizer: undoes the avalanche steps in reverse order
using the modular inverses of the two odd multiplier constants, then cancels
the XOR with the length. -/
def finalizeInv (y n : Nat) : Nat :=
  let h5 := unshift16 y
  let h4 := u32 (h5 * 2127672349)
  let h3 := unshift13 h4
  let h2 := u32 (h3 * 2781581891)
  let h1 := unshift16 h2
  h1 ^^^ u32 n

/- Helper lemmas -/

theorem u32_eq_mod (x : Nat) : u32 x = x % 4294967296 := by
  have h : (0xffffffff : Nat) = 2 ^ 32 - 1 := by norm_num
  have h2 : (4294967296 : Nat) = 2 ^ 32 := by norm_num
  rw [u32, h, h2, Nat.and_pow_two_sub_one_eq_mod]

theorem u32_lt (x : Nat) : u32 x < 4294967296 := by
  rw [u32_eq_mod]
  exact Nat.mod_lt _ (by norm_num)

theorem xor_lt (a b : Nat) (ha : a < 4294967296) (hb : b < 4294967296) :
    a ^^^ b < 4294967296 := by
  have h : (4294967296 : Nat) = 2 ^ 32 := by norm_num
  rw [h] at *
  exact Nat.xor_lt_two_pow ha hb

theorem xorshift_lt (x n : Nat) (hx : x < 4294967296) : x ^^^ (x >>> n) < 4294967296 := by
  refine xor_lt x (x >>> n) hx ?_
  calc x >>> n = x / 2 ^ n := Nat.shiftRight_eq_div_pow x n
    _ ≤ x := Nat.div_le_self x (2 ^ n)
    _ < 4294967296 := hx

theorem xor_shiftRight_distrib (a b n : Nat) :
    (a ^^^ b) >>> n = (a >>> n) ^^^ (b >>> n) := by
  apply Nat.eq_of_testBit_eq
  intro i
  simp [Nat.testBit_shiftRight, Nat.testBit_xor]

theorem shiftRight_past_width (x n : Nat) (hx : x < 4294967296) (hn : 32 ≤ n) :
    x >>> n = 0 := by
  rw [Nat.shiftRight_eq_div_pow]
  apply Nat.div_eq_of_lt
  calc x < 4294967296 := hx
    _ = 2 ^ 32 := by norm_num
    _ ≤ 2 ^ n := Nat.pow_le_pow_right (by norm_num) hn

theorem unshift16_round (x : Nat) (hx : x < 4294967296) :
    unshift16 (x ^^^ (x >>> 16)) = x := by
  unfold unshift16
  rw [xor_shiftRight_distrib, ← Nat.shiftRight_add,
      shiftRight_past_width x (16 + 16) hx (by norm_num), Nat.xor_zero,
      Nat.xor_assoc, Nat.xor_self, Nat.xor_zero]

theorem unshift13_round (x : Nat) (hx : x < 4294967296) :
    unshift13 (x ^^^ (x >>> 13)) = x := by
  unfold unshift13
  rw [xor_shiftRight_distrib, xor_shiftRight_distrib,
      ← Nat.shiftRight_add, ← Nat.shiftRight_add,
      shiftRight_past_width x (13 + 26) hx (by norm_num),
      show (13 + 13 : Nat) = 26 from rfl, Nat.xor_zero,
      Nat.xor_assoc x (x >>> 13), ← Nat.xor_assoc (x >>> 13) (x >>> 13),
      Nat.xor_self, Nat.zero_xor, Nat.xor_assoc, Nat.xor_self, Nat.xor_zero]

theorem mul_mod_inv (x c cinv : Nat) (hx : x < 4294967296)
    (hc : c * cinv % 4294967296 = 1) :
    u32 (u32 (x * c) * cinv) = x := by
  rw [u32_eq_mod, u32_eq_mod]
  rw [Nat.mod_mul_mod, Nat.mul_assoc, Nat.mul_mod, hc, Nat.mul_one,
      Nat.mod_eq_of_lt hx, Nat.mod_eq_of_lt hx]

theorem finalizeInv_round (h n : Nat) (hh : h < 4294967296) :
    finalizeInv (implFinalize h n) n = h := by
  have h1lt : u32 h ^^^ u32 n < 4294967296 := xor_lt _ _ (u32_lt h) (u32_lt n)
  unfold implFinalize finalizeInv
  simp only
  rw [unshift16_round _ (u32_lt _),
      mul_mod_inv _ 0xc2b2ae35 2127672349 (xorshift_lt _ 13 (u32_lt _)) (by norm_num),
      unshift13_round _ (u32_lt _),
      mul_mod_inv _ 0x85ebca6b 2781581891 (xorshift_lt _ 16 h1lt) (by norm_num),
      unshift16_round _ h1lt,
      Nat.xor_assoc, Nat.xor_self, Nat.xor_zero]
  rw [u32_eq_mod]
  exact Nat.mod_eq_of_lt hh

theorem implFinalize_lt (Hash Length : Nat) : implFinalize Hash Length < 4294967296 := by
  unfold implFinalize
  exact xorshift_lt _ 16 (u32_lt _)

theorem murmurImpl_lt : ∀ (Chars : List Nat) (Hash Length : Nat),
    MurmurHash32Impl Hash Length Chars < 4294967296
  | [], H, L => implFinalize_lt H L
  | [A], H, L => implFinalize_lt (H ^^^ tailK1 A) (L + 1)
  | [A, B], H, L => implFinalize_lt (H ^^^ tailK2 A B) (L + 2)
  | [A, B, C], H, L => implFinalize_lt (H ^^^ tailK3 A B C) (L + 3)
  | A :: B :: C :: D :: Tail, H, L => by
      simp only [MurmurHash32Impl]
      exact murmurImpl_lt Tail (implBlockStep H A B C D) (L + 4)

theorem implFinalize_eq_spec (Hash Length : Nat) :
    implFinalize Hash Length = specFinalize Hash Length := by
  simp [implFinalize, specFinalize, u32_eq_mod, Nat.shiftRight_eq_div_pow]

theorem absorb_spec : ∀ (Chars : List Nat) (Hash Length : Nat),
    MurmurHash32Impl Hash Length Chars =
      implFinalize (implAbsorb Hash Chars) (Length + Chars.length)
  | [], H, L => rfl
  | [A], H, L => rfl
  | [A, B], H, L => rfl
  | [A, B, C], H, L => rfl
  | A :: B :: C :: D :: Tail, H, L => by
      have ih := absorb_spec Tail (implBlockStep H A B C D) (L + 4)
      simp only [MurmurHash32Impl]
      rw [ih]
      simp only [implAbsorb, List.length_cons]
      congr 1
      omega

theorem fuelSpec : ∀ (Chars : List Nat) (fuel Hash Length : Nat),
    Chars.length < fuel →
    MurmurHash32ImplFuel fuel Hash Length Chars = some (MurmurHash32Impl Hash Length Chars)
  | _, 0, _, _, h => absurd h (Nat.not_lt_zero _)
  | [], _ + 1, _, _, _ => rfl
  | [_], _ + 1, _, _, _ => rfl
  | [_, _], _ + 1, _, _, _ => rfl
  | [_, _, _], _ + 1, _, _, _ => rfl
  | A :: B :: C :: D :: Tail, fuel + 1, H, L, h => by
      have hlen : Tail.length < fuel := by
        simp only [List.length_cons] at h
        omega
      simp only [MurmurHash32ImplFuel, MurmurHash32Impl]
      exact fuelSpec Tail fuel (implBlockStep H A B C D) (L + 4) hlen

/- Claim theorems -/

/-- Claim C1, counterexample: with seed 0 the code hashes the two-byte input
ab (bytes 97, 98) to 0x9bbfd75f, not to the value 0x9bbfd7fc stated in the
spec; the canonical MurmurHash3_x86_32 value of ab is also 0x9bbfd75f, so the
spec vector is a transcription slip. -/
theorem c1_counterexample : MurmurHash32 0 [97, 98] ≠ 0x9bbfd7fc := by decide

/-- Claim C1, amended: with seed 0 the hash of the empty sequence is
0x00000000, of a is 0x3c2569b2, of ab is 0x9bbfd75f, of abc is 0xb3dd93fa,
and of abcd is 0x43ed676a, matching the canonical MurmurHash3_x86_32
reference on these inputs. -/
theorem c1_test_vectors :
    MurmurHash32 0 [] = 0x00000000 ∧
    MurmurHash32 0 [97] = 0x3c2569b2 ∧
    MurmurHash32 0 [97, 98] = 0x9bbfd75f ∧
    MurmurHash32 0 [97, 98, 99] = 0xb3dd93fa ∧
    MurmurHash32 0 [97, 98, 99, 100] = 0x43ed676a := by decide

/-- Claim C2: the claim says each 4-byte chunk is assembled little-endian
with the high bytes of every input byte zero. The code promotes each char
(signed on the reference ABI) to int before shifting, so a byte at or above
0x80 in any of the three low positions is sign-extended and floods the high
bits of K0. At input bytes 128,0,0,0 with seed 0 the digest therefore
differs from the spec-side canonical hash, while on inputs whose bytes are
all below 0x80 (such as abcd) the two agree; the divergence contradicts the
algorithm documented in the header comment of murmur.h itself. -/
theorem c2_block_sign_extension :
    MurmurHash32 0 [128, 0, 0, 0] = 2975395125 ∧
    specHash32 0 [128, 0, 0, 0] = 4162446295 ∧
    MurmurHash32 0 [128, 0, 0, 0] ≠ specHash32 0 [128, 0, 0, 0] ∧
    MurmurHash32 0 [97, 98, 99, 100] = specHash32 0 [97, 98, 99, 100] := by decide

/-- Claim C3: the claim says the trailing 1-3 bytes form a short word with
all higher-order bits zero. The code XORs the sign-extended char into K,
so a trailing byte at or above 0x80 floods the high bits: at the single
byte 128 with seed 0 the digest differs from the spec-side canonical hash,
while all-ASCII tails of each length 1, 2, 3 agree (the combine-step
omission the claim describes is confirmed by those agreements). -/
theorem c3_tail_sign_extension :
    MurmurHash32 0 [128] = 600905945 ∧
    specHash32 0 [128] = 267099677 ∧
    MurmurHash32 0 [128] ≠ specHash32 0 [128] ∧
    MurmurHash32 0 [97] = specHash32 0 [97] ∧
    MurmurHash32 0 [97, 98] = specHash32 0 [97, 98] ∧
    MurmurHash32 0 [97, 98, 99] = specHash32 0 [97, 98, 99] := by decide

/-- Claim C4: the finalizer of the code equals, for every accumulator and
length value, the spec formula with logical right shifts written as
division; moreover the digest of any input is exactly this finalizer
applied to the post-absorption accumulator and the true byte count. -/
theorem c4_finalizer :
    (∀ Hash Length : Nat, implFinalize Hash Length = specFinalize Hash Length) ∧
    (∀ (Seed : Nat) (Chars : List Nat),
      MurmurHash32 Seed Chars = specFinalize (implAbsorb (u32 Seed) Chars) Chars.length) := by
  refine ⟨implFinalize_eq_spec, fun S C => ?_⟩
  show MurmurHash32Impl (u32 S) 0 C = _
  rw [absorb_spec C (u32 S) 0, Nat.zero_add, implFinalize_eq_spec]

/-- Claim C5: hashing the empty sequence is defined for every 32-bit seed
and equals the finalizer applied to the seed with length 0. -/
theorem c5_empty (Seed : Nat) (h : Seed < 4294967296) :
    MurmurHash32 Seed [] = implFinalize Seed 0 := by
  show implFinalize (u32 Seed) 0 = implFinalize Seed 0
  rw [u32_eq_mod, Nat.mod_eq_of_lt h]

/-- Witness for c5_empty at seed 7. -/
theorem c5_witness : (7 : Nat) < 4294967296 ∧ MurmurHash32 7 [] = implFinalize 7 0 :=
  ⟨by decide, c5_empty 7 (by decide)⟩

/-- Claim C6, counterexample: the Seed template parameter has no default
value in murmur.h, so the usage shown in its own comment, which omits the
seed, binds the first character (H = 72) as the seed; that is not the same
digest as hashing both characters with seed 0, refuting the claim that an
omitted seed defaults to 0. -/
theorem c6_no_seed_default : MurmurHash32 72 [105] ≠ MurmurHash32 0 [72, 105] := by decide

/-- Claim C6, amended: the entry point accepts every finite byte sequence,
empty included, together with an explicitly supplied unsigned 32-bit seed,
and always produces a 32-bit digest; the seed has no default value. -/
theorem c6_entry_total (Seed : Nat) (Chars : List Nat) :
    MurmurHash32 Seed Chars < 4294967296 :=
  murmurImpl_lt Chars (u32 Seed) 0

/-- Claim C7: the hash is deterministic, a pure function of the byte
sequence and the seed alone: equal inputs give equal digests. -/
theorem c7_deterministic (b1 b2 : List Nat) (s1 s2 : Nat)
    (hb : b1 = b2) (hs : s1 = s2) : MurmurHash32 s1 b1 = MurmurHash32 s2 b2 := by
  rw [hb, hs]

/-- Witness for c7_deterministic at seed 0 and input a. -/
theorem c7_witness : MurmurHash32 0 [97] = MurmurHash32 0 [97] :=
  c7_deterministic [97] [97] 0 0 rfl rfl

/-- Claim C8: seed sensitivity holds at the short test strings a and abcd:
seeds 0 and 1 give different digests, which also witnesses the existential
form of the claim. -/
theorem c8_seed_sensitivity :
    MurmurHash32 0 [97] ≠ MurmurHash32 1 [97] ∧
    MurmurHash32 0 [97, 98, 99, 100] ≠ MurmurHash32 1 [97, 98, 99, 100] := by decide

/-- Claim C9: the recursion terminates for every finite input within a
number of recursive steps bounded by the input length: the fuel-indexed
evaluator with any fuel exceeding the byte count already reaches the
finalizer base case and returns the digest (each full block consumes four
bytes for one unit of fuel, a tail consumes all remaining bytes at once). -/
theorem c9_terminates (Chars : List Nat) (fuel Hash Length : Nat)
    (h : Chars.length < fuel) :
    MurmurHash32ImplFuel fuel Hash Length Chars =
      some (MurmurHash32Impl Hash Length Chars) :=
  fuelSpec Chars fuel Hash Length h

/-- Witness for c9_terminates on a five-byte input with fuel 6. -/
theorem c9_witness :
    [97, 98, 99, 100, 101].length < 6 ∧
    MurmurHash32ImplFuel 6 0 0 [97, 98, 99, 100, 101] =
      some (MurmurHash32Impl 0 0 [97, 98, 99, 100, 101]) :=
  ⟨by decide, c9_terminates [97, 98, 99, 100, 101] 6 0 0 (by decide)⟩

/-- Claim C10: for a fixed length value, the finalizer is injective on
32-bit accumulators: the avalanche steps after the length XOR are each
invertible (xorshifts by 16 and 13, and multiplication by the odd units
0x85ebca6b and 0xc2b2ae35 mod 2 ^ 32), so finalization introduces no
collisions. -/
theorem c10_finalizer_injective (n h1 h2 : Nat)
    (hh1 : h1 < 4294967296) (hh2 : h2 < 4294967296)
    (heq : implFinalize h1 n = implFinalize h2 n) : h1 = h2 := by
  have h3 : finalizeInv (implFinalize h1 n) n = finalizeInv (implFinalize h2 n) n := by
    rw [heq]
  rw [finalizeInv_round h1 n hh1, finalizeInv_round h2 n hh2] at h3
  exact h3

/-- Witness for c10_finalizer_injective at length 4 and accumulator 5. -/
theorem c10_witness : (5 : Nat) = 5 :=
  c10_finalizer_injective 4 5 5 (by decide) (by decide) rfl

end Murmur
